import Mathlib

/-!
Verification development for the wretched terminal-UI toolkit core:
the sizing-negotiation wrapper, cache invalidation, text layout/render,
overlay placement and the accordion open/close protocol.

Code under src/ is translated directly; the geometry value types, the
Viewport, the Theme type and the unicode helpers are not part of the
source tree and are modelled from the specification (their definitions
say so in their doc comments).
-/

namespace Wretched

/-- Modelled from the spec: geometry module is not under src/.  A Size is a
pair of integers that are kept nonnegative (spec section 3: width, height
are integers that satisfy the invariant width, height at least 0). -/
structure Size where
  width : Nat
  height : Nat
deriving DecidableEq, Repr

/-- Modelled from the spec: Size.grow adds to both dimensions. -/
def Size.grow (s : Size) (dw dh : Nat) : Size :=
  ⟨s.width + dw, s.height + dh⟩

/-- Modelled from the spec: Size.shrink subtracts from both dimensions,
clamping at zero so the spec invariant (components nonnegative) holds. -/
def Size.shrink (s : Size) (dw dh : Nat) : Size :=
  ⟨s.width - dw, s.height - dh⟩

/-- Modelled from the spec: geometry Point (integer coordinates). -/
structure Point where
  x : Int
  y : Int
deriving DecidableEq, Repr

/-- Modelled from the spec: geometry Rect, origin plus size. -/
structure Rect where
  origin : Point
  size : Size
deriving DecidableEq, Repr

def Rect.minX (r : Rect) : Int := r.origin.x

def Rect.maxX (r : Rect) : Int := r.origin.x + r.size.width

def Rect.minY (r : Rect) : Int := r.origin.y

def Rect.maxY (r : Rect) : Int := r.origin.y + r.size.height

/-- Modelled from the spec: a rect is empty when either dimension is zero. -/
def Rect.isEmpty (r : Rect) : Bool :=
  r.size.width = 0 || r.size.height = 0

/-- Modelled from the spec: containment of a grid cell in a rect. -/
def Rect.containsCell (r : Rect) (x y : Int) : Bool :=
  decide (r.minX ≤ x) && decide (x < r.maxX) &&
    decide (r.minY ≤ y) && decide (y < r.maxY)

/-- Modelled from the spec: clipping intersection of two rects. -/
def Rect.intersection (a b : Rect) : Rect :=
  let lox := max a.minX b.minX
  let loy := max a.minY b.minY
  let hix := min a.maxX b.maxX
  let hiy := min a.maxY b.maxY
  ⟨⟨lox, loy⟩, ⟨(hix - lox).toNat, (hiy - loy).toNat⟩⟩

/-- Modelled from the spec: translating a rect moves its origin only. -/
def Rect.translate (r : Rect) (dx dy : Int) : Rect :=
  ⟨⟨r.origin.x + dx, r.origin.y + dy⟩, r.size⟩

/-! ## View sizing protocol

Translated from the View base class (src/lib/components/Collapsible.ts,
second bundled file, lines 129-429 of the concatenated source). -/

/-- A width/height prop value: an explicit number, fill available, or
natural (`number | 'fill' | 'natural'` in the source; `undefined` is
represented by wrapping in Option at the use site). -/
inductive Dim where
  | fill
  | natural
  | pix (n : Nat)
deriving DecidableEq, Repr

/-- Padding edges (interface Edges of the source). -/
structure Edges where
  top : Nat
  right : Nat
  bottom : Nat
  left : Nat
deriving DecidableEq, Repr

/-- The sizing-relevant private fields of a View: offsets, dimension
props, min/max bounds and padding, all optional as in the source. -/
structure ViewFields where
  x : Option Nat
  y : Option Nat
  width : Option Dim
  height : Option Dim
  minWidth : Option Nat
  minHeight : Option Nat
  maxWidth : Option Nat
  maxHeight : Option Nat
  padding : Option Edges
deriving DecidableEq, Repr

/-- JavaScript truthiness of an optional number prop: defined and nonzero
(`this.#x` is falsy when undefined or 0). -/
def truthy (o : Option Nat) : Bool :=
  !(o.getD 0 = 0 : Bool)

/-- The per-available-size cache `#prevSizeCache`.  The source keys a Map
by the string `width x height`, which is in bijection with the size pair,
so the model keys by the Size itself.  A Map.set is modelled by prepending
and a Map.get by first match. -/
def SizeCache := List (Size × Size)

deriving instance DecidableEq, Repr for SizeCache

/-- Map.get on the cache: first matching key. -/
def cacheGet : SizeCache → Size → Option Size
  | [], _ => none
  | (k, v) :: rest, key => if key = k then some v else cacheGet rest key

/-- Map.set on the cache: the new entry shadows any previous one. -/
def cacheSet (c : SizeCache) (key value : Size) : SizeCache :=
  (key, value) :: c

/-- View.#toDimension: fill resolves to the available space, natural to
the calculated size, an explicit number to itself (source lines 202-213). -/
def toDimension (dim : Dim) (available : Nat) (natural : Nat) : Nat :=
  match dim with
  | .fill => available
  | .natural => natural
  | .pix n => n

/-- The direction flag of View.#restrictSize: `naturalSize` resolves with
shrink preference, `render` with grow preference. -/
inductive SizePrefer where
  | grow
  | shrink
deriving DecidableEq, Repr

/-- View.#restrictSize (source lines 215-275).  When both width and
height props are set the fast path resolves each dimension independently
with no min/max clamping; otherwise the preferred base size is taken and
each unset dimension is clamped by min then max.  The source memoizes the
calculated-size thunk; in this pure model the thunk is a value. -/
def restrictSize (v : ViewFields) (calcSize availableSize : Size)
    (prefer : SizePrefer) : Size :=
  match v.width, v.height with
  | some w, some h =>
    ⟨toDimension w availableSize.width calcSize.width,
     toDimension h availableSize.height calcSize.height⟩
  | _, _ =>
    let base := match prefer with
      | .shrink => calcSize
      | .grow => availableSize
    let rw :=
      match v.width with
      | some w => toDimension w availableSize.width calcSize.width
      | none =>
        let w1 := match v.minWidth with
          | some m => Nat.max m base.width
          | none => base.width
        match v.maxWidth with
        | some m => Nat.min m w1
        | none => w1
    let rh :=
      match v.height with
      | some h => toDimension h availableSize.height calcSize.height
      | none =>
        let h1 := match v.minHeight with
          | some m => Nat.max m base.height
          | none => base.height
        match v.maxHeight with
        | some m => Nat.min m h1
        | none => h1
    ⟨rw, rh⟩

/-- The calculated-size thunk of View.#naturalSizeWrap: the subclass
naturalSize grown by the padding edges (source lines 291-300). -/
def paddedCalc (v : ViewFields) (inner : Size → Size) (avail : Size) : Size :=
  let s := inner avail
  match v.padding with
  | some p => s.grow (p.left + p.right) (p.top + p.bottom)
  | none => s

/-- The offset-shrunk available size: the source reassigns availableSize
to `availableSize.shrink(x, y)` when x or y is truthy (lines 286-288). -/
def shrunkAvailable (v : ViewFields) (availableSize : Size) : Size :=
  if truthy v.x || truthy v.y then
    availableSize.shrink (v.x.getD 0) (v.y.getD 0)
  else
    availableSize

/-- The cache-miss body of View.#naturalSizeWrap: restrict the padded
subclass size with shrink preference, then add the truthy offsets back to
the resolved size (source lines 290-310).  `avail` is the already
offset-shrunk available size. -/
def computeNaturalSize (v : ViewFields) (inner : Size → Size)
    (avail : Size) : Size :=
  let size := restrictSize v (paddedCalc v inner avail) avail .shrink
  let size := if truthy v.x then
      { size with width := size.width + v.x.getD 0 }
    else size
  if truthy v.y then
    { size with height := size.height + v.y.getD 0 }
  else size

/-- View.#naturalSizeWrap (source lines 277-315): look the original
available size up in the cache; on a miss, shrink by the offsets, compute
the restricted size, and store it.  Note the store uses the reassigned
(offset-shrunk) variable as its key, exactly as the source does. -/
def naturalSizeWrap (v : ViewFields) (inner : Size → Size)
    (cache : SizeCache) (availableSize : Size) : Size × SizeCache :=
  match cacheGet cache availableSize with
  | some s => (s, cache)
  | none =>
    let avail := shrunkAvailable v availableSize
    let size := computeNaturalSize v inner avail
    (size, cacheSet cache avail size)

/-! ## Text view

Translated from src/lib/components/Text.ts.  The unicode helper module is
not under src/, so string cell widths are modelled. -/

/-- Modelled from the spec: unicode.lineWidth, the terminal cell width of
a string; modelled as the character count (every test input used below is
made of single-width characters). -/
def lineWidth (s : String) : Nat := s.length

/-- The sizing-relevant state of a Text view: its View base fields and
size cache, the raw text, the cached (line, width) pairs maintained by
#updateLines, and the wrap flag.  The default font (no glyph
substitution) is modelled; alignment does not affect sizing. -/
structure TextView where
  fields : ViewFields
  cache : SizeCache
  text : String
  lines : List (String × Nat)
  wrap : Bool
deriving DecidableEq, Repr

/-- Text.#updateLines for a defined text argument (source lines 101-128):
store the text, split it into lines (the empty text has no lines), record
each line with its width and invalidate the size cache. -/
def updateLines (tv : TextView) (text : String) : TextView :=
  let ls := if text = "" then [] else text.splitOn "\n"
  { tv with
    text := text
    lines := ls.map (fun l => (l, lineWidth l))
    cache := [] }

/-- The Text.text setter (source lines 57-63): no effect when the new
value is equal to the current text, otherwise #updateLines. -/
def setText (tv : TextView) (value : String) : TextView :=
  if tv.text = value then tv else updateLines tv value

/-- Text.naturalSize (source lines 130-143): reduce over the stored
lines; wrapping lines contribute height 1 + width / available.width and
force the width to the available width, non-wrapping lines contribute
height 1 and the running maximum width.  Nat division by zero is 0, which
matches the source, where a JavaScript double-bitwise-not of a division
by zero also yields 0. -/
def textNaturalSize (lines : List (String × Nat)) (wrap : Bool)
    (available : Size) : Size :=
  lines.foldl
    (fun size line =>
      if wrap then
        ⟨available.width, size.height + (1 + line.2 / available.width)⟩
      else
        ⟨Nat.max size.width line.2, size.height + 1⟩)
    ⟨0, 0⟩

/-- The wrapped naturalSize of a Text view: the base wrapper applied to
the subclass naturalSize, threading the cache. -/
def textNaturalSizeWrapped (tv : TextView) (a : Size) : Size × TextView :=
  let r := naturalSizeWrap tv.fields (textNaturalSize tv.lines tv.wrap) tv.cache a
  (r.1, { tv with cache := r.2 })

/-! ## Invalidation and the render wrapper's size-change detection

Translated from View.invalidateSize (source lines 368-373) and the
detection prefix of View.#renderWrap (source lines 324-334).  A view and
its chain of ancestors (reached through the parent back-references) are
modelled as a list, the view itself first. -/

/-- The invalidation-relevant state of one view: its size cache, its
`#invalidateParent` gate and its `#viewportContentSize` recorded on the
previous frame. -/
structure VState where
  cache : SizeCache
  invalidateParent : Bool
  viewportContentSize : Size
deriving DecidableEq, Repr

/-- View.invalidateSize applied to a view and its ancestor chain: empty
the view's cache and, when its `#invalidateParent` gate is open, recurse
into the parent (which applies its own gate in turn). -/
def invalidateSizeChain : List VState → List VState
  | [] => []
  | v :: rest =>
    if v.invalidateParent then
      { v with cache := [] } :: invalidateSizeChain rest
    else
      { v with cache := [] } :: rest

/-- The content-size change detection step of View.#renderWrap (source
lines 324-334): when the incoming viewport content size differs from the
recorded one, close the `#invalidateParent` gate, self-invalidate, reopen
the gate; in both cases record the new viewport content size. -/
def renderWrapSizeCheck (cs : Size) : List VState → List VState
  | [] => []
  | v :: rest =>
    if v.viewportContentSize ≠ cs then
      match invalidateSizeChain ({ v with invalidateParent := false } :: rest) with
      | [] => []
      | v1 :: rest1 =>
        { v1 with invalidateParent := true, viewportContentSize := cs } :: rest1
    else
      { v with viewportContentSize := cs } :: rest

/-! ## Theme resolution

Translated from the View.theme getter (source lines 194-196): a view's
own override, else the parent's resolved theme, else the process-wide
plain theme.  The view and its ancestors are modelled as the list of
their theme overrides, the view's own override first. -/

/-- Modelled from the spec: the Theme value type is out of scope; only
its identity matters here, with a distinguished process-wide plain
theme. -/
structure Theme where
  tag : Nat
deriving DecidableEq, Repr

/-- Modelled from the spec: the process-wide plain theme. -/
def Theme.plain : Theme := ⟨0⟩

/-- The View.theme getter over the chain of overrides: own override if
set, otherwise the parent chain's resolution, defaulting to plain when no
parent remains. -/
def viewTheme : List (Option Theme) → Theme
  | [] => Theme.plain
  | t :: rest => t.getD (viewTheme rest)

/-! ## Dropdown overlay placement

Translated from DropdownSelector.render (src/lib/components/Accordion.ts,
second bundled file, source lines 761-810): decide whether the overlay
opens below or above its anchor.  The decision depends only on the
anchor's parentRect y-extent, the viewport content height, and the
overlay's natural height (already maxed with the content size by the
caller); these are the integer parameters below. -/

/-- Overlay side chosen by DropdownSelector.render. -/
inductive OverlaySide where
  | above
  | below
deriving DecidableEq, Repr

/-- The available space below the anchor as computed by the source:
contentSize.height - parentRect.maxY() + 1. -/
def spaceBelowAnchor (parentMaxY contentH : Int) : Int :=
  contentH - parentMaxY + 1

/-- The available space above the anchor as computed by the source:
parentRect.minY() + 1. -/
def spaceAboveAnchor (parentMinY : Int) : Int :=
  parentMinY + 1

/-- The overlay fits below when parentRect.maxY() + height is strictly
less than the content height. -/
def overlayFitsBelow (parentMaxY contentH h : Int) : Prop :=
  parentMaxY + h < contentH

/-- The overlay fits above when its height is at most parentRect.minY(). -/
def overlayFitsAbove (parentMinY h : Int) : Prop :=
  h ≤ parentMinY

instance (parentMaxY contentH h : Int) :
    Decidable (overlayFitsBelow parentMaxY contentH h) :=
  inferInstanceAs (Decidable (_ < _))

instance (parentMinY h : Int) :
    Decidable (overlayFitsAbove parentMinY h) :=
  inferInstanceAs (Decidable (_ ≤ _))

/-- The placement decision of DropdownSelector.render (source lines
765-790): when the overlay fits neither below nor above, pick the side
with more room (preferring below unless above has strictly more) and clip
the height to that room; otherwise prefer below, then above. -/
def dropdownPlacement (parentMinY parentMaxY contentH h : Int) :
    OverlaySide × Int :=
  if ¬overlayFitsBelow parentMaxY contentH h
      ∧ ¬overlayFitsAbove parentMinY h then
    let spaceBelow := spaceBelowAnchor parentMaxY contentH
    let spaceAbove := spaceAboveAnchor parentMinY
    if spaceAbove > spaceBelow then
      (.above, spaceAbove)
    else
      (.below, spaceBelow)
  else if overlayFitsBelow parentMaxY contentH h then
    (.below, h)
  else
    (.above, h)

/-! ## Text rendering: pen, style tokens and the character loop

The character loop of Text.render (source lines 169-198) is translated
over the token stream that unicode.printableChars yields; the unicode
module and the Style codec live outside src/ and are modelled. -/

/-- Modelled from the spec: a style value; only its identity matters, so
it carries the escape code that produced it. -/
structure Style where
  sgr : String
deriving DecidableEq, Repr

/-- Modelled from the spec: Style.fromSGR, the codec that turns an
escape-coded zero-width token into a pen-mutation instruction. -/
def Style.fromSGR (code : String) : Style := ⟨code⟩

/-- Modelled from the spec: one printable token as produced by
unicode.printableChars — its text and its terminal cell width
(unicode.charWidth); style-escape tokens have width 0. -/
structure TChar where
  s : String
  w : Nat
deriving DecidableEq, Repr

/-- Modelled from the spec: the whitespace test `char.match(/\s/)` on a
token's text. -/
def isSpaceTok (t : TChar) : Bool :=
  t.s.any Char.isWhitespace

/-- One write emitted through the viewport: position, token text and the
pen style active at the time of the write. -/
structure Cell where
  x : Int
  y : Int
  s : String
  style : Style
deriving DecidableEq, Repr

/-- The mutable state of the Text.render loop: the pen position, the
per-line wrap flag and the current pen style. -/
structure TextRenderState where
  x : Int
  y : Int
  didWrap : Bool
  pen : Style
deriving DecidableEq, Repr

/-- The character loop of Text.render (source lines 169-198): a
zero-width token replaces the pen without advancing; otherwise the pen
may wrap to the next row, whitespace immediately after a wrap is
swallowed, the token is written when horizontally inside the visible
rect, and the pen advances by the token width. -/
def renderLine (wrap : Bool) (contentW minX maxX : Int) :
    TextRenderState → List TChar → List Cell × TextRenderState
  | st, [] => ([], st)
  | st, c :: rest =>
    if c.w = 0 then
      renderLine wrap contentW minX maxX
        { st with pen := Style.fromSGR c.s } rest
    else
      let st1 := if wrap = true ∧ contentW ≤ st.x then
          { st with x := 0, y := st.y + 1, didWrap := true }
        else st
      if st1.didWrap = true ∧ isSpaceTok c = true then
        renderLine wrap contentW minX maxX st1 rest
      else
        let st2 := { st1 with didWrap := false }
        let emitted := if minX ≤ st2.x ∧ st2.x + (c.w : Int) - 1 < maxX then
            [Cell.mk st2.x st2.y c.s st2.pen]
          else []
        (emitted
           ++ (renderLine wrap contentW minX maxX
                { st2 with x := st2.x + (c.w : Int) } rest).1,
         (renderLine wrap contentW minX maxX
           { st2 with x := st2.x + (c.w : Int) } rest).2)

/-! ## Viewport and degenerate geometry

The Viewport lives outside src/; its clipping and writing behaviour is
modelled from the spec (section 4.2).  The full Text.render driver over
the stored lines, including its early return on an empty viewport
(source lines 145-148), is translated from src/lib/components/Text.ts. -/

/-- Modelled from the spec: a viewport carries the content size a view
may paint into and the clipped visible sub-rect. -/
structure Viewport where
  contentSize : Size
  visibleRect : Rect
deriving DecidableEq, Repr

/-- Modelled from the spec: a viewport is empty when its visible rect has
no area. -/
def Viewport.isEmpty (vp : Viewport) : Bool :=
  vp.visibleRect.isEmpty

/-- Modelled from the spec: clipped(rect, body) yields a nested viewport
whose content size is the rect's size and whose visible rect is the
intersection of the rect with the current visible rect, re-expressed in
the nested coordinate frame. -/
def Viewport.clipped (vp : Viewport) (r : Rect) : Viewport :=
  ⟨r.size,
   (Rect.intersection r vp.visibleRect).translate (-r.origin.x) (-r.origin.y)⟩

/-- Modelled from the spec: the cell-by-cell core of Viewport.write —
walk the tokens from the start column, keeping only cells inside the
visible rect (cells outside are silently dropped per cell). -/
def vpWriteGo (vp : Viewport) (y : Int) (style : Style) :
    Int → List TChar → List Cell
  | _, [] => []
  | x, c :: rest =>
    (if vp.visibleRect.containsCell x y then [Cell.mk x y c.s style] else [])
      ++ vpWriteGo vp y style (x + (c.w : Int)) rest

/-- Modelled from the spec: Viewport.write paints a token stream starting
at a point, dropping cells outside the visible rect. -/
def vpWrite (vp : Viewport) (toks : List TChar) (p : Point)
    (style : Style) : List Cell :=
  vpWriteGo vp p.y style p.x toks

/-- Text line alignment (src/lib/components/types). -/
inductive Alignment where
  | left
  | center
  | right
deriving DecidableEq, Repr

/-- The per-line horizontal offset of Text.render (source lines 162-167);
the truncating division matches the JavaScript double-bitwise-not. -/
def offsetXFor (al : Alignment) (contentW : Int) (width : Nat) : Int :=
  match al with
  | .left => 0
  | .center => Int.tdiv (contentW - width) 2
  | .right => contentW - width

/-- The line loop of Text.render (source lines 153-202): empty lines only
advance the row; other lines reset the pen column to the alignment
offset and the wrap flag, run the character loop, and advance the row. -/
def renderLines (wrap : Bool) (al : Alignment) (contentW minX maxX : Int) :
    TextRenderState → List (List TChar × Nat) → List Cell
  | _, [] => []
  | st, (toks, width) :: rest =>
    if toks.isEmpty then
      renderLines wrap al contentW minX maxX { st with y := st.y + 1 } rest
    else
      let st0 := { st with x := offsetXFor al contentW width, didWrap := false }
      (renderLine wrap contentW minX maxX st0 toks).1
        ++ renderLines wrap al contentW minX maxX
            { (renderLine wrap contentW minX maxX st0 toks).2 with
                y := (renderLine wrap contentW minX maxX st0 toks).2.y + 1 }
            rest

/-- Text.render (source lines 145-203): return immediately with no
writes when the viewport is empty, otherwise run the line loop with the
initial pen style from row 0. -/
def textRender (vp : Viewport) (style : Style) (wrap : Bool)
    (al : Alignment) (lines : List (List TChar × Nat)) : List Cell :=
  if vp.isEmpty then []
  else
    renderLines wrap al vp.contentSize.width vp.visibleRect.minX
      vp.visibleRect.maxX ⟨0, 0, false, style⟩ lines

/-! ## Accordion: single-open invariant

Translated from src/lib/components/Accordion.ts for an accordion whose
`multiple` prop is unset or false.  Only each section's isOpen flag
matters for the invariant, so the accordion state is the list of those
flags in child order. -/

/-- Accordion.#sectionDidChange for multiple=false (source lines 74-86):
when a section reports having opened, close every other section.  The
toggled section (at the given index) is left alone. -/
def closeOthers : List Bool → Nat → List Bool
  | [], _ => []
  | b :: rest, 0 => b :: rest.map (fun _ => false)
  | b :: rest, Nat.succ i =>
    let _ := b
    false :: closeOthers rest i

/-- Accordion.addSection for multiple=false (source lines 88-108): when
the incoming section is open, first set isOpen=false on every existing
section, then append the new one. -/
def addSection (secs : List Bool) (isOpen : Bool) : List Bool :=
  (if isOpen then secs.map (fun _ => false) else secs) ++ [isOpen]

/-- AccordionSection.receiveMouse for a click on section i, combined with
the onClick wired to Accordion.#sectionDidChange (source lines 250-258
and 74-86): toggle the section; when the new value is open, close every
other section.  Clicks are only delivered to existing sections. -/
def clickSection (secs : List Bool) (i : Nat) : List Bool :=
  if i < secs.length then
    let newVal := !(secs.getD i false)
    let secs1 := secs.set i newVal
    if newVal then closeOthers secs1 i else secs1
  else
    secs

/-- One accordion interaction: adding a section (open or closed) or a
mouse click on the section at an index. -/
inductive AccOp where
  | addSection (isOpen : Bool)
  | click (i : Nat)
deriving DecidableEq, Repr

/-- Run one interaction against the accordion's open-flags state. -/
def accStep (secs : List Bool) : AccOp → List Bool
  | .addSection b => addSection secs b
  | .click i => clickSection secs i

/-- Run a sequence of interactions against a freshly constructed
(empty, multiple=false) accordion. -/
def accRun (ops : List AccOp) : List Bool :=
  ops.foldl accStep []

/-- Number of open sections. -/
def countOpen : List Bool → Nat
  | [] => 0
  | true :: rest => countOpen rest + 1
  | false :: rest => countOpen rest

/-! ## Theorems -/

/-! ## Cache lemmas -/

theorem cacheGet_cacheSet (c : SizeCache) (k v : Size) (key : Size) :
    cacheGet (cacheSet c k v) key = if key = k then some v else cacheGet c key := by
  rfl

theorem cacheGet_nil (a : Size) : cacheGet [] a = none := rfl

theorem naturalSizeWrap_miss (v : ViewFields) (inner : Size → Size)
    (c : SizeCache) (a : Size) (h : cacheGet c a = none) :
    naturalSizeWrap v inner c a
      = (computeNaturalSize v inner (shrunkAvailable v a),
         cacheSet c (shrunkAvailable v a)
           (computeNaturalSize v inner (shrunkAvailable v a))) := by
  simp [naturalSizeWrap, h]

theorem naturalSizeWrap_hit (v : ViewFields) (inner : Size → Size)
    (c : SizeCache) (a s : Size) (h : cacheGet c a = some s) :
    naturalSizeWrap v inner c a = (s, c) := by
  simp [naturalSizeWrap, h]

theorem shrunkAvailable_of_no_offset (v : ViewFields) (a : Size)
    (hx : truthy v.x = false) (hy : truthy v.y = false) :
    shrunkAvailable v a = a := by
  simp [shrunkAvailable, hx, hy]

/-- Claim C1 counterexample: for a view with a nonzero x offset the first
call stores its result under the offset-shrunk key, so a second call with
the same available size ⟨5, 5⟩ is NOT served from the cache keyed by that
available size (the lookup misses). -/
theorem offsetView_second_lookup_misses :
    cacheGet
      ((naturalSizeWrap
          ⟨some 1, none, none, none, none, none, none, none, none⟩
          (fun s => s) [] ⟨5, 5⟩).2)
      ⟨5, 5⟩ = none := by
  decide

/-- Claim C1 (amended): (i) for every view, calling the wrapped
naturalSize twice with the same available size and no mutation in between
returns identical results; (ii) when the view has no truthy x/y offset
the result of the first call is found in the cache under the available
size, so the second call is served from the cache; (iii) setting a Text
view's text to a different string clears the size cache, so the next call
recomputes (it returns the freshly computed value for the new lines). -/
theorem naturalSize_cache_correct_and_text_invalidation :
    (∀ (v : ViewFields) (inner : Size → Size) (c : SizeCache) (a : Size),
      (naturalSizeWrap v inner (naturalSizeWrap v inner c a).2 a).1
        = (naturalSizeWrap v inner c a).1)
    ∧ (∀ (v : ViewFields) (inner : Size → Size) (c : SizeCache) (a : Size),
        truthy v.x = false → truthy v.y = false →
        cacheGet (naturalSizeWrap v inner c a).2 a
          = some (naturalSizeWrap v inner c a).1)
    ∧ (∀ (tv : TextView) (value : String), tv.text ≠ value →
        (setText tv value).cache = []
        ∧ ∀ a : Size,
            (textNaturalSizeWrapped (setText tv value) a).1
              = computeNaturalSize tv.fields
                  (textNaturalSize (setText tv value).lines
                    (setText tv value).wrap)
                  (shrunkAvailable tv.fields a)) := by
  refine ⟨?_, ?_, ?_⟩
  · intro v inner c a
    cases h : cacheGet c a with
    | some s =>
      rw [naturalSizeWrap_hit v inner c a s h]
      rw [naturalSizeWrap_hit v inner c a s h]
    | none =>
      rw [naturalSizeWrap_miss v inner c a h]
      by_cases hk : a = shrunkAvailable v a
      · have hget :
            cacheGet
              (cacheSet c (shrunkAvailable v a)
                (computeNaturalSize v inner (shrunkAvailable v a))) a
            = some (computeNaturalSize v inner (shrunkAvailable v a)) := by
          rw [cacheGet_cacheSet, if_pos hk]
        rw [naturalSizeWrap_hit _ _ _ _ _ hget]
      · have hget :
            cacheGet
              (cacheSet c (shrunkAvailable v a)
                (computeNaturalSize v inner (shrunkAvailable v a))) a
            = none := by
          rw [cacheGet_cacheSet, if_neg hk]
          exact h
        rw [naturalSizeWrap_miss _ _ _ _ hget]
  · intro v inner c a hx hy
    cases h : cacheGet c a with
    | some s =>
      rw [naturalSizeWrap_hit v inner c a s h]
      exact h
    | none =>
      rw [naturalSizeWrap_miss v inner c a h]
      rw [cacheGet_cacheSet]
      simp [shrunkAvailable_of_no_offset v a hx hy]
  · intro tv value hne
    have hset : setText tv value = updateLines tv value := by
      unfold setText
      rw [if_neg hne]
    refine ⟨by rw [hset]; rfl, ?_⟩
    intro a
    rw [hset]
    rfl

/-- Witness for the amended claim C1: a Text view holding the text "a"
mutated to "bc" ends with an empty cache, and for a view with no offset
the first call's result is served back from the cache. -/
theorem naturalSize_cache_correct_witness :
    (setText
        ⟨⟨none, none, none, none, none, none, none, none, none⟩,
         [(⟨7, 7⟩, ⟨1, 1⟩)], "a", [("a", 1)], false⟩
        "bc").cache = []
    ∧ cacheGet
        (naturalSizeWrap
          ⟨none, none, none, none, none, none, none, none, none⟩
          (fun s => s) [] ⟨6, 2⟩).2 ⟨6, 2⟩
      = some (naturalSizeWrap
          ⟨none, none, none, none, none, none, none, none, none⟩
          (fun s => s) [] ⟨6, 2⟩).1 := by
  refine ⟨?_, ?_⟩
  · exact (naturalSize_cache_correct_and_text_invalidation.2.2
      ⟨⟨none, none, none, none, none, none, none, none, none⟩,
       [(⟨7, 7⟩, ⟨1, 1⟩)], "a", [("a", 1)], false⟩
      "bc" (by decide)).1
  · exact naturalSize_cache_correct_and_text_invalidation.2.1
      ⟨none, none, none, none, none, none, none, none, none⟩
      (fun s => s) [] ⟨6, 2⟩ rfl rfl

/-- Claim C2 counterexample: a view with explicit width 5 and height 4
but also an x offset of 2 resolves to size ⟨7, 4⟩, not ⟨5, 4⟩ — the
wrapper adds the truthy offset back to the resolved size. -/
theorem explicitSize_offset_counterexample :
    (naturalSizeWrap
      ⟨some 2, none, some (Dim.pix 5), some (Dim.pix 4),
       none, none, none, none, none⟩
      (fun _ => ⟨0, 0⟩) [] ⟨10, 10⟩).1 ≠ ⟨5, 4⟩ := by
  decide

/-- Claim C2 (amended): for every view with explicit numeric width W and
height H and no truthy x/y offset, the wrapped naturalSize returns
⟨W, H⟩ for every available size (including available sizes smaller than
⟨W, H⟩), with no min/max clamping applied on this fast path. -/
theorem explicit_size_fast_path (W H : Nat) (xo yo : Option Nat)
    (mnw mnh mxw mxh : Option Nat) (pad : Option Edges)
    (inner : Size → Size) (a : Size)
    (hx : truthy xo = false) (hy : truthy yo = false) :
    (naturalSizeWrap
      ⟨xo, yo, some (Dim.pix W), some (Dim.pix H), mnw, mnh, mxw, mxh, pad⟩
      inner [] a).1 = ⟨W, H⟩ := by
  rw [naturalSizeWrap_miss _ _ _ _ (cacheGet_nil _)]
  rw [shrunkAvailable_of_no_offset _ _ hx hy]
  simp [computeNaturalSize, restrictSize, toDimension, hx, hy]

/-- Witness for the amended claim C2: explicit 5 by 4 with min/max
bounds set and an available size of ⟨2, 2⟩ (smaller than the explicit
size) still resolves to ⟨5, 4⟩. -/
theorem explicit_size_fast_path_witness :
    (naturalSizeWrap
      ⟨none, some 0, some (Dim.pix 5), some (Dim.pix 4),
       some 9, some 9, some 3, some 3, none⟩
      (fun _ => ⟨0, 0⟩) [] ⟨2, 2⟩).1 = ⟨5, 4⟩ :=
  explicit_size_fast_path 5 4 none (some 0) (some 9) (some 9) (some 3)
    (some 3) none (fun _ => ⟨0, 0⟩) ⟨2, 2⟩ rfl rfl

/-- Claim C3 counterexample: a view with width fill and an x offset of 5
queried with available size ⟨1, 10⟩ resolves width 5, not 1: the
available width shrinks to 0 (clamped), fill resolves to 0, and the
offset 5 is added back. -/
theorem fill_width_offset_counterexample :
    (naturalSizeWrap
      ⟨some 5, none, some Dim.fill, some Dim.fill,
       none, none, none, none, none⟩
      (fun _ => ⟨0, 0⟩) [] ⟨1, 10⟩).1.width ≠ 1 := by
  decide

theorem restrictSize_fill_width (v : ViewFields) (cs avail : Size)
    (pref : SizePrefer) (hw : v.width = some Dim.fill) :
    (restrictSize v cs avail pref).width = avail.width := by
  cases hh : v.height with
  | some h => simp [restrictSize, hw, hh, toDimension]
  | none => simp [restrictSize, hw, hh, toDimension]

/-- Claim C3 (amended): for every view with width fill whose x offset
(defaulting to 0) is at most the available width, the wrapped
naturalSize resolves the width to exactly the available width.  (When
the offset exceeds the available width the shrink clamps at zero and the
offset is added back, as in the counterexample.) -/
theorem fill_width_resolves_to_available (v : ViewFields)
    (inner : Size → Size) (a : Size)
    (hw : v.width = some Dim.fill) (hx : v.x.getD 0 ≤ a.width) :
    (naturalSizeWrap v inner [] a).1.width = a.width := by
  rw [naturalSizeWrap_miss _ _ _ _ (cacheGet_nil _)]
  show (computeNaturalSize v inner (shrunkAvailable v a)).width = a.width
  have hww :
      ∀ s : Size,
        (computeNaturalSize v inner s).width
          = (if truthy v.x then
              (restrictSize v (paddedCalc v inner s) s .shrink).width
                + v.x.getD 0
             else (restrictSize v (paddedCalc v inner s) s .shrink).width) := by
    intro s
    unfold computeNaturalSize
    by_cases htx : truthy v.x = true
    · by_cases hty : truthy v.y = true
      · simp [htx, hty]
      · simp [htx, hty]
    · by_cases hty : truthy v.y = true
      · simp [htx, hty]
      · simp [htx, hty]
  rw [hww]
  by_cases htx : truthy v.x = true
  · have hsa : shrunkAvailable v a
        = a.shrink (v.x.getD 0) (v.y.getD 0) := by
      simp [shrunkAvailable, htx]
    rw [if_pos htx, restrictSize_fill_width v _ _ _ hw, hsa]
    show a.width - v.x.getD 0 + v.x.getD 0 = a.width
    omega
  · have htx' : truthy v.x = false := by
      cases h : truthy v.x with
      | true => exact absurd h htx
      | false => rfl
    have hx0 : v.x.getD 0 = 0 := by
      by_contra h0
      have : truthy v.x = true := by
        unfold truthy
        simp [h0]
      exact htx this
    rw [if_neg htx, restrictSize_fill_width v _ _ _ hw]
    by_cases hty : truthy v.y = true
    · have hsa : shrunkAvailable v a
          = a.shrink (v.x.getD 0) (v.y.getD 0) := by
        simp [shrunkAvailable, hty]
      rw [hsa, hx0]
      show a.width - 0 = a.width
      omega
    · have hty' : truthy v.y = false := by
        cases h : truthy v.y with
        | true => exact absurd h hty
        | false => rfl
      rw [shrunkAvailable_of_no_offset v a htx' hty']

/-- Witness for the amended claim C3: width fill with x offset 2 and
available width 10 resolves width to exactly 10. -/
theorem fill_width_resolves_to_available_witness :
    (naturalSizeWrap
      ⟨some 2, none, some Dim.fill, none,
       none, none, none, none, none⟩
      (fun _ => ⟨3, 2⟩) [] ⟨10, 4⟩).1.width = 10 :=
  fill_width_resolves_to_available
    ⟨some 2, none, some Dim.fill, none, none, none, none, none, none⟩
    (fun _ => ⟨3, 2⟩) ⟨10, 4⟩ rfl (by decide)

/-- Claim C4: when the wrapped render sees a viewport content size that
differs from the one recorded on the previous frame, the view's own size
cache is emptied and the new content size recorded, the suppression gate
ends up open (true) again, and every ancestor — in particular the parent
and its size cache — is left completely unchanged. -/
theorem renderWrap_size_change_self_invalidation (cs : Size) (v : VState)
    (rest : List VState) (h : v.viewportContentSize ≠ cs) :
    renderWrapSizeCheck cs (v :: rest)
      = { v with cache := [], invalidateParent := true,
                 viewportContentSize := cs } :: rest := by
  simp [renderWrapSizeCheck, if_pos h, invalidateSizeChain]

/-- Witness for claim C4: a concrete two-view chain whose child recorded
⟨0, 0⟩ is rendered at ⟨3, 3⟩; the child's cache empties and the parent
entry (with its nonempty cache) is untouched. -/
theorem renderWrap_size_change_self_invalidation_witness :
    renderWrapSizeCheck ⟨3, 3⟩
      [⟨[(⟨1, 1⟩, ⟨1, 1⟩)], true, ⟨0, 0⟩⟩,
       ⟨[(⟨2, 2⟩, ⟨2, 2⟩)], true, ⟨9, 9⟩⟩]
      = [⟨[], true, ⟨3, 3⟩⟩,
         ⟨[(⟨2, 2⟩, ⟨2, 2⟩)], true, ⟨9, 9⟩⟩] :=
  renderWrap_size_change_self_invalidation ⟨3, 3⟩
    ⟨[(⟨1, 1⟩, ⟨1, 1⟩)], true, ⟨0, 0⟩⟩
    [⟨[(⟨2, 2⟩, ⟨2, 2⟩)], true, ⟨9, 9⟩⟩] (by decide)

/-- Claim C5: invalidateSize empties the view's entire per-available-size
cache and, exactly when the suppression gate is open, applies the
parent's invalidateSize to the ancestor chain (leaving the ancestors
untouched when the gate is closed); and it is idempotent — running it
twice leaves the whole chain exactly as running it once. -/
theorem invalidateSize_clears_propagates_idempotent :
    (∀ (v : VState) (rest : List VState),
      invalidateSizeChain (v :: rest)
        = { v with cache := [] }
            :: (if v.invalidateParent then invalidateSizeChain rest else rest))
    ∧ ∀ l : List VState,
        invalidateSizeChain (invalidateSizeChain l) = invalidateSizeChain l := by
  constructor
  · intro v rest
    by_cases h : v.invalidateParent
    · simp [invalidateSizeChain, h]
    · simp [invalidateSizeChain, h]
  · intro l
    induction l with
    | nil => rfl
    | cons v rest ih =>
      by_cases h : v.invalidateParent
      · simp [invalidateSizeChain, h, ih]
      · simp [invalidateSizeChain, h]

/-- Claim C9: the theme accessor returns the view's own override when
set; otherwise the override of the nearest ancestor that has one (the
ancestors before it all being unset); otherwise, when no override exists
anywhere in the chain, the process-wide plain theme. -/
theorem theme_resolution :
    (∀ (t : Theme) (rest : List (Option Theme)),
      viewTheme (some t :: rest) = t)
    ∧ (∀ (pre : List (Option Theme)) (t : Theme) (rest : List (Option Theme)),
        (∀ o ∈ pre, o = none) →
        viewTheme (pre ++ some t :: rest) = t)
    ∧ ∀ l : List (Option Theme), (∀ o ∈ l, o = none) →
        viewTheme l = Theme.plain := by
  refine ⟨fun t rest => rfl, ?_, ?_⟩
  · intro pre t rest hpre
    induction pre with
    | nil => rfl
    | cons o pre ih =>
      have ho : o = none := hpre o (List.mem_cons_self o pre)
      rw [ho]
      show viewTheme (pre ++ some t :: rest) = t
      exact ih (fun o ho' => hpre o (List.mem_cons_of_mem _ ho'))
  · intro l hl
    induction l with
    | nil => rfl
    | cons o rest ih =>
      have ho : o = none := hl o (List.mem_cons_self o rest)
      rw [ho]
      show viewTheme rest = Theme.plain
      exact ih (fun o ho' => hl o (List.mem_cons_of_mem _ ho'))

/-- Witness for claim C9: a view with no override under an ancestor with
override ⟨5⟩ (with an unset ancestor in between) resolves to ⟨5⟩, and an
all-unset chain resolves to plain. -/
theorem theme_resolution_witness :
    viewTheme [none, none, some ⟨5⟩, some ⟨9⟩] = ⟨5⟩
    ∧ viewTheme [none, none, none] = Theme.plain := by
  constructor
  · exact theme_resolution.2.1 [none, none] ⟨5⟩ [some ⟨9⟩] (by decide)
  · exact theme_resolution.2.2 [none, none, none] (by decide)

/-- Claim C6: when the overlay height fits neither below nor above the
anchor, the side with strictly more room wins and an exact tie goes
below; when it fits below, below is chosen; when it fits only above,
above is chosen. -/
theorem dropdown_placement_policy (parentMinY parentMaxY contentH h : Int) :
    ((¬overlayFitsBelow parentMaxY contentH h →
      ¬overlayFitsAbove parentMinY h →
        (spaceAboveAnchor parentMinY > spaceBelowAnchor parentMaxY contentH →
          (dropdownPlacement parentMinY parentMaxY contentH h).1 = .above)
        ∧ (spaceAboveAnchor parentMinY ≤ spaceBelowAnchor parentMaxY contentH →
            (dropdownPlacement parentMinY parentMaxY contentH h).1 = .below)
        ∧ (spaceAboveAnchor parentMinY = spaceBelowAnchor parentMaxY contentH →
            (dropdownPlacement parentMinY parentMaxY contentH h).1 = .below)))
    ∧ (overlayFitsBelow parentMaxY contentH h →
        (dropdownPlacement parentMinY parentMaxY contentH h).1 = .below)
    ∧ (¬overlayFitsBelow parentMaxY contentH h →
        overlayFitsAbove parentMinY h →
        (dropdownPlacement parentMinY parentMaxY contentH h).1 = .above) := by
  refine ⟨?_, ?_, ?_⟩
  · intro hnb hna
    refine ⟨?_, ?_, ?_⟩
    · intro hgt
      simp [dropdownPlacement, if_pos (And.intro hnb hna), if_pos hgt]
    · intro hle
      have : ¬spaceAboveAnchor parentMinY > spaceBelowAnchor parentMaxY contentH := by
        omega
      simp [dropdownPlacement, if_pos (And.intro hnb hna), if_neg this]
    · intro heq
      have : ¬spaceAboveAnchor parentMinY > spaceBelowAnchor parentMaxY contentH := by
        omega
      simp [dropdownPlacement, if_pos (And.intro hnb hna), if_neg this]
  · intro hb
    have hcond : ¬(¬overlayFitsBelow parentMaxY contentH h
        ∧ ¬overlayFitsAbove parentMinY h) := by
      intro hc
      exact hc.1 hb
    simp [dropdownPlacement, if_neg hcond, if_pos hb]
  · intro hnb ha
    have hcond : ¬(¬overlayFitsBelow parentMaxY contentH h
        ∧ ¬overlayFitsAbove parentMinY h) := by
      intro hc
      exact hc.2 ha
    simp [dropdownPlacement, if_neg hcond, if_neg hnb]

/-- Witness for claim C6: anchor rows 3 to 5 in a 6-row viewport with
overlay height 10 fits neither side; above has room 4, below room 2, so
above wins; with anchor rows 1 to 2 in a 3-row viewport the tie (room 2 each) goes below; and
height 1 under the same anchor fits below and goes below. -/
theorem dropdown_placement_policy_witness :
    (dropdownPlacement 3 5 6 10).1 = OverlaySide.above
    ∧ (dropdownPlacement 1 2 3 10).1 = OverlaySide.below
    ∧ (dropdownPlacement 1 2 9 1).1 = OverlaySide.below := by
  refine ⟨?_, ?_, ?_⟩
  · exact ((dropdown_placement_policy 3 5 6 10).1
      (by decide) (by decide)).1 (by decide)
  · exact (((dropdown_placement_policy 1 2 3 10).1
      (by decide) (by decide)).2.2) (by decide)
  · exact (dropdown_placement_policy 1 2 9 1).2.1 (by decide)

theorem renderLine_append (wrap : Bool) (contentW minX maxX : Int)
    (l1 l2 : List TChar) (st : TextRenderState) :
    renderLine wrap contentW minX maxX st (l1 ++ l2)
      = ((renderLine wrap contentW minX maxX st l1).1
           ++ (renderLine wrap contentW minX maxX
                (renderLine wrap contentW minX maxX st l1).2 l2).1,
         (renderLine wrap contentW minX maxX
           (renderLine wrap contentW minX maxX st l1).2 l2).2) := by
  induction l1 generalizing st with
  | nil => simp [renderLine]
  | cons c l1 ih =>
    by_cases h0 : c.w = 0
    · simp only [List.cons_append, renderLine, if_pos h0]
      exact ih _
    · simp only [List.cons_append, renderLine, if_neg h0]
      by_cases hskip :
          (if wrap = true ∧ contentW ≤ st.x then
            { st with x := 0, y := st.y + 1, didWrap := true }
          else st).didWrap = true ∧ isSpaceTok c = true
      · simp only [if_pos hskip]
        exact ih _
      · simp only [if_neg hskip, List.append_eq]
        rw [ih]
        simp [List.append_assoc]

/-- Claim C7: a zero-width style-escape token consumes no horizontal
cells.  (i) Processing the token replaces the pen with the decoded style
and leaves position, row and wrap flag unchanged, emitting nothing;
(ii) in any line split as pre ++ token :: post, the written cells are
exactly those of pre under the old pen followed by those of post under
the decoded style, with post starting at exactly the position where pre
left off; (iii) with wrapping off, a following visible width-1 glyph is
written at exactly the position the pen had when it met the token, in
the decoded style. -/
theorem style_token_zero_width (tok : TChar) (htok : tok.w = 0) :
    (∀ (wrap : Bool) (contentW minX maxX : Int) (st : TextRenderState)
        (rest : List TChar),
      renderLine wrap contentW minX maxX st (tok :: rest)
        = renderLine wrap contentW minX maxX
            { st with pen := Style.fromSGR tok.s } rest)
    ∧ (∀ (wrap : Bool) (contentW minX maxX : Int) (st : TextRenderState)
        (pre post : List TChar),
        renderLine wrap contentW minX maxX st (pre ++ tok :: post)
          = ((renderLine wrap contentW minX maxX st pre).1
               ++ (renderLine wrap contentW minX maxX
                    { (renderLine wrap contentW minX maxX st pre).2 with
                        pen := Style.fromSGR tok.s } post).1,
             (renderLine wrap contentW minX maxX
               { (renderLine wrap contentW minX maxX st pre).2 with
                   pen := Style.fromSGR tok.s } post).2))
    ∧ (∀ (contentW minX maxX : Int) (st : TextRenderState) (g : TChar)
        (rest : List TChar),
        g.w = 1 → st.didWrap = false → minX ≤ st.x → st.x < maxX →
        (renderLine false contentW minX maxX st (tok :: g :: rest)).1.head?
          = some (Cell.mk st.x st.y g.s (Style.fromSGR tok.s))) := by
  have part1 :
      ∀ (wrap : Bool) (contentW minX maxX : Int) (st : TextRenderState)
        (rest : List TChar),
        renderLine wrap contentW minX maxX st (tok :: rest)
          = renderLine wrap contentW minX maxX
              { st with pen := Style.fromSGR tok.s } rest := by
    intro wrap contentW minX maxX st rest
    simp [renderLine, htok]
  refine ⟨part1, ?_, ?_⟩
  · intro wrap contentW minX maxX st pre post
    rw [renderLine_append, part1]
  · intro contentW minX maxX st g rest hg hdw hmn hmx
    rw [part1]
    have hg0 : ¬g.w = 0 := by omega
    simp only [renderLine, if_neg hg0]
    have hwrap : ¬(false = true ∧ contentW ≤ st.x) := by
      intro hc
      exact Bool.false_ne_true hc.1
    rw [if_neg hwrap]
    have hskip :
        ¬(({ st with pen := Style.fromSGR tok.s } : TextRenderState).didWrap
            = true ∧ isSpaceTok g = true) := by
      intro hc
      rw [show ({ st with pen := Style.fromSGR tok.s }
        : TextRenderState).didWrap = st.didWrap from rfl, hdw] at hc
      exact Bool.false_ne_true hc.1
    rw [if_neg hskip]
    have hvis : minX ≤ st.x ∧ st.x + ((g.w : Nat) : Int) - 1 < maxX := by
      constructor
      · exact hmn
      · rw [hg]
        omega
    simp [if_pos hvis]

/-- Witness for claim C7: the stream x, token, a (token zero-width)
renders as x at column 0 in the initial style and a at column 1 in the
decoded style — the token consumed no cell and the style changed exactly
at the character after it. -/
theorem style_token_zero_width_witness :
    (renderLine false 10 0 10 ⟨0, 0, false, ⟨"plain"⟩⟩
        [⟨"x", 1⟩, ⟨"esc", 0⟩, ⟨"a", 1⟩]).1
      = [Cell.mk 0 0 "x" ⟨"plain"⟩,
         Cell.mk 1 0 "a" (Style.fromSGR "esc")] := by
  have h := (style_token_zero_width ⟨"esc", 0⟩ rfl).2.1 false 10 0 10
    ⟨0, 0, false, ⟨"plain"⟩⟩ [⟨"x", 1⟩] [⟨"a", 1⟩]
  rw [show ([⟨"x", 1⟩] ++ (⟨"esc", 0⟩ : TChar) :: [⟨"a", 1⟩]
      : List TChar)
    = [⟨"x", 1⟩, ⟨"esc", 0⟩, ⟨"a", 1⟩] from rfl] at h
  rw [h]
  decide

theorem textNaturalSize_wrap_zero_aux (lines : List (String × Nat))
    (acc : Size) (hw : acc.width = 0) (h : Nat) :
    lines.foldl
      (fun size line =>
        if true then
          ⟨(⟨0, h⟩ : Size).width, size.height + (1 + line.2 / (⟨0, h⟩ : Size).width)⟩
        else
          ⟨Nat.max size.width line.2, size.height + 1⟩)
      acc
      = ⟨0, acc.height + lines.length⟩ := by
  induction lines generalizing acc with
  | nil =>
    cases acc with
    | mk w hh =>
      simp at hw
      simp [hw]
  | cons l rest ih =>
    rw [List.foldl_cons, if_pos rfl]
    rw [ih ⟨0, acc.height + (1 + l.2 / 0)⟩ rfl]
    simp [Nat.div_zero]
    omega

theorem textNaturalSize_nowrap_height_aux (lines : List (String × Nat))
    (acc : Size) (a : Size) :
    (lines.foldl
      (fun size line =>
        if false then
          ⟨a.width, size.height + (1 + line.2 / a.width)⟩
        else
          ⟨Nat.max size.width line.2, size.height + 1⟩)
      acc).height
      = acc.height + lines.length := by
  induction lines generalizing acc with
  | nil => simp
  | cons l rest ih =>
    rw [List.foldl_cons, if_neg (by exact Bool.false_ne_true)]
    rw [ih ⟨Nat.max acc.width l.2, acc.height + 1⟩]
    simp
    omega

theorem rect_isEmpty_contains_false (r : Rect) (hr : r.isEmpty = true)
    (x y : Int) : r.containsCell x y = false := by
  unfold Rect.isEmpty at hr
  unfold Rect.containsCell Rect.minX Rect.maxX Rect.minY Rect.maxY
  rcases Bool.or_eq_true_iff.mp hr with hw | hh
  · have hw0 : r.size.width = 0 := by
      exact of_decide_eq_true hw
    rw [hw0]
    by_cases h1 : r.origin.x ≤ x
    · by_cases h2 : x < r.origin.x + (0 : Nat)
      · omega
      · simp [h2]
    · simp [h1]
  · have hh0 : r.size.height = 0 := by
      exact of_decide_eq_true hh
    rw [hh0]
    by_cases h1 : r.origin.y ≤ y
    · by_cases h2 : y < r.origin.y + (0 : Nat)
      · omega
      · simp [h2]
    · simp [h1]

theorem vpWriteGo_empty (vp : Viewport) (hv : vp.isEmpty = true)
    (y : Int) (style : Style) (x : Int) (toks : List TChar) :
    vpWriteGo vp y style x toks = [] := by
  induction toks generalizing x with
  | nil => rfl
  | cons c rest ih =>
    unfold vpWriteGo
    rw [rect_isEmpty_contains_false vp.visibleRect hv x y]
    simp [ih]

/-- Claim C8: degenerate geometry is not an error.  (i) Text.render on an
empty viewport performs no writes; (ii) Text.naturalSize with zero
available width is well defined: with wrapping on it returns exactly
⟨0, number of lines⟩ (the division by zero yields 0, as in the source),
and with wrapping off its height is the number of lines; (iii) clipping
by a rect whose intersection with the visible rect is empty yields an
empty nested viewport; (iv) every write into an empty viewport is a
no-op. -/
theorem degenerate_geometry_safe :
    (∀ (vp : Viewport) (style : Style) (wrap : Bool) (al : Alignment)
        (lines : List (List TChar × Nat)),
      vp.isEmpty = true → textRender vp style wrap al lines = [])
    ∧ (∀ (lines : List (String × Nat)) (h : Nat),
        textNaturalSize lines true ⟨0, h⟩ = ⟨0, lines.length⟩
        ∧ (textNaturalSize lines false ⟨0, h⟩).height = lines.length)
    ∧ (∀ (vp : Viewport) (r : Rect),
        (Rect.intersection r vp.visibleRect).isEmpty = true →
        (vp.clipped r).isEmpty = true)
    ∧ (∀ (vp : Viewport) (toks : List TChar) (p : Point) (style : Style),
        vp.isEmpty = true → vpWrite vp toks p style = []) := by
  refine ⟨?_, ?_, ?_, ?_⟩
  · intro vp style wrap al lines hv
    simp [textRender, hv]
  · intro lines h
    constructor
    · have := textNaturalSize_wrap_zero_aux lines ⟨0, 0⟩ rfl h
      simpa [textNaturalSize] using this
    · have := textNaturalSize_nowrap_height_aux lines ⟨0, 0⟩ ⟨0, h⟩
      simpa [textNaturalSize] using this
  · intro vp r hint
    unfold Viewport.clipped Viewport.isEmpty
    unfold Rect.isEmpty Rect.translate at *
    exact hint
  · intro vp toks p style hv
    exact vpWriteGo_empty vp hv p.y style p.x toks

/-- Witness for claim C8: an empty viewport renders the text line ab
with no writes, a two-line text at zero available width sizes to
⟨0, 2⟩, a clip fully outside the visible rect is empty, and a write into
the empty viewport emits nothing. -/
theorem degenerate_geometry_safe_witness :
    textRender ⟨⟨4, 4⟩, ⟨⟨0, 0⟩, ⟨0, 4⟩⟩⟩ ⟨"p"⟩ false Alignment.left
        [([⟨"a", 1⟩, ⟨"b", 1⟩], 2)] = []
    ∧ textNaturalSize [("ab", 2), ("c", 1)] true ⟨0, 9⟩ = ⟨0, 2⟩
    ∧ (Viewport.clipped ⟨⟨4, 4⟩, ⟨⟨0, 0⟩, ⟨4, 4⟩⟩⟩
        ⟨⟨9, 9⟩, ⟨2, 2⟩⟩).isEmpty = true
    ∧ vpWrite ⟨⟨4, 4⟩, ⟨⟨0, 0⟩, ⟨0, 4⟩⟩⟩ [⟨"a", 1⟩] ⟨1, 1⟩ ⟨"p"⟩ = [] := by
  refine ⟨?_, ?_, ?_, ?_⟩
  · exact degenerate_geometry_safe.1 ⟨⟨4, 4⟩, ⟨⟨0, 0⟩, ⟨0, 4⟩⟩⟩ ⟨"p"⟩ false
      Alignment.left [([⟨"a", 1⟩, ⟨"b", 1⟩], 2)] (by decide)
  · exact (degenerate_geometry_safe.2.1 [("ab", 2), ("c", 1)] 9).1
  · exact degenerate_geometry_safe.2.2.1 ⟨⟨4, 4⟩, ⟨⟨0, 0⟩, ⟨4, 4⟩⟩⟩
      ⟨⟨9, 9⟩, ⟨2, 2⟩⟩ (by decide)
  · exact degenerate_geometry_safe.2.2.2 ⟨⟨4, 4⟩, ⟨⟨0, 0⟩, ⟨0, 4⟩⟩⟩
      [⟨"a", 1⟩] ⟨1, 1⟩ ⟨"p"⟩ (by decide)

theorem countOpen_append (l1 l2 : List Bool) :
    countOpen (l1 ++ l2) = countOpen l1 + countOpen l2 := by
  induction l1 with
  | nil =>
    show countOpen l2 = 0 + countOpen l2
    omega
  | cons b rest ih =>
    cases b with
    | true =>
      show countOpen (rest ++ l2) + 1 = countOpen rest + 1 + countOpen l2
      rw [ih]
      omega
    | false =>
      show countOpen (rest ++ l2) = countOpen rest + countOpen l2
      exact ih

theorem countOpen_map_false (l : List Bool) :
    countOpen (l.map (fun _ => false)) = 0 := by
  induction l with
  | nil => rfl
  | cons b rest ih => exact ih

theorem countOpen_closeOthers (l : List Bool) (i : Nat) :
    countOpen (closeOthers l i) ≤ 1 := by
  induction l generalizing i with
  | nil =>
    show (0 : Nat) ≤ 1
    omega
  | cons b rest ih =>
    cases i with
    | zero =>
      cases b with
      | true =>
        show countOpen (rest.map (fun _ => false)) + 1 ≤ 1
        rw [countOpen_map_false]
      | false =>
        show countOpen (rest.map (fun _ => false)) ≤ 1
        rw [countOpen_map_false]
        omega
    | succ i =>
      show countOpen (closeOthers rest i) ≤ 1
      exact ih i

theorem countOpen_set_false (l : List Bool) (i : Nat) :
    countOpen (l.set i false) ≤ countOpen l := by
  induction l generalizing i with
  | nil =>
    show (0 : Nat) ≤ 0
    omega
  | cons b rest ih =>
    cases i with
    | zero =>
      cases b with
      | true =>
        show countOpen rest ≤ countOpen rest + 1
        omega
      | false =>
        show countOpen rest ≤ countOpen rest
        omega
    | succ i =>
      cases b with
      | true =>
        show countOpen (rest.set i false) + 1 ≤ countOpen rest + 1
        have := ih i
        omega
      | false =>
        show countOpen (rest.set i false) ≤ countOpen rest
        exact ih i

theorem accStep_preserves (secs : List Bool) (op : AccOp)
    (h : countOpen secs ≤ 1) : countOpen (accStep secs op) ≤ 1 := by
  cases op with
  | addSection b =>
    show countOpen (addSection secs b) ≤ 1
    unfold addSection
    cases b with
    | true =>
      rw [if_pos rfl, countOpen_append, countOpen_map_false]
      show 0 + 1 ≤ 1
      omega
    | false =>
      rw [if_neg Bool.false_ne_true, countOpen_append]
      show countOpen secs + 0 ≤ 1
      omega
  | click i =>
    show countOpen (clickSection secs i) ≤ 1
    unfold clickSection
    by_cases hi : i < secs.length
    · rw [if_pos hi]
      cases hg : secs.getD i false with
      | true =>
        simp only [hg, Bool.not_true, Bool.false_eq_true, if_false]
        exact le_trans (countOpen_set_false secs i) h
      | false =>
        simp only [hg, Bool.not_false, if_true]
        exact countOpen_closeOthers _ i
    · rw [if_neg hi]
      exact h

/-- Claim C10: for an accordion constructed with multiple unset or
false, after any sequence of addSection calls and mouse clicks delivered
to its sections, at most one section is open. -/
theorem accordion_at_most_one_open (ops : List AccOp) :
    countOpen (accRun ops) ≤ 1 := by
  suffices hgen : ∀ (secs : List Bool), countOpen secs ≤ 1 →
      countOpen (ops.foldl accStep secs) ≤ 1 by
    exact hgen [] (by simp [countOpen])
  induction ops with
  | nil =>
    intro secs h
    exact h
  | cons op rest ih =>
    intro secs h
    rw [List.foldl_cons]
    exact ih (accStep secs op) (accStep_preserves secs op h)

end Wretched
